import Mathlib

/-!
Verification of the asynchronous moderation pipeline (`app/` package):
the `moderation_results` task store (`app/repositories/moderation_results.py`),
the worker's claim/commit queries (`app/workers/moderation_worker.py`),
listing closure (`app/repositories/advertisements.py`), the feature builder
(`app/clients/model.py`) and the cache-aside read paths
(`app/routers/predict.py`, `app/routers/entities.py`).

Shallow embedding: SQL statements become pure functions on an explicit
database state (a list of rows plus the BIGSERIAL counter and a clock for
`NOW()`); every `await` boundary where another actor could interleave is
modelled by an explicit interference parameter; JSON decoding (a stdlib
call) is modelled by passing the decode outcome alongside the payload text.
Python `float` arithmetic is modelled over `ℚ`.
-/

namespace ModerationPipeline

/-- The `status` column of `moderation_results`
(`CHECK status IN ('pending','completed','failed')`). -/
inductive Status where
  | pending
  | completed
  | failed
deriving DecidableEq, Repr

/-- One row of the `moderation_results` table.  Timestamps are abstract
clock ticks; `probability` is `DOUBLE` modelled over `ℚ`. -/
structure TaskRow where
  id : Nat
  item_id : Int
  status : Status
  is_violation : Option Bool
  probability : Option ℚ
  error_message : Option String
  created_at : Nat
  processed_at : Option Nat
deriving DecidableEq, Repr

/-- State of the `moderation_results` table: its rows, the next value of
the `BIGSERIAL` id sequence, and the clock supplying `NOW()`. -/
structure DB where
  rows : List TaskRow
  nextId : Nat
  now : Nat
deriving DecidableEq, Repr

/-- `CASE WHEN status = 'pending' THEN 0 ELSE 1 END` from the
`get_existing_query` of `ModerationResultStorage.create_pending`. -/
def statusRank : Status → Nat
  | .pending => 0
  | _ => 1

/-- Row `a` sorts no later than row `b` under
`ORDER BY CASE WHEN status = 'pending' THEN 0 ELSE 1 END, id DESC`:
pending first, ties broken by highest `id`. -/
def orderedBefore (a b : TaskRow) : Prop :=
  statusRank a.status < statusRank b.status ∨
    (statusRank a.status = statusRank b.status ∧ b.id ≤ a.id)

instance (a b : TaskRow) : Decidable (orderedBefore a b) := by
  unfold orderedBefore; infer_instance

/-- Of two rows, the one the `ORDER BY ... LIMIT 1` would keep. -/
def better (a b : TaskRow) : TaskRow :=
  if orderedBefore a b then a else b

/-- `SELECT ... ORDER BY ... LIMIT 1` over a list of candidate rows. -/
def selectExisting (l : List TaskRow) : Option TaskRow :=
  l.foldl (fun acc r => match acc with
    | none => some r
    | some a => some (better a r)) none

/-- Candidate rows of `get_existing_query`:
`WHERE item_id = $1 AND status IN ('pending', 'completed')`. -/
def candidates (s : DB) (item : Int) : List TaskRow :=
  s.rows.filter (fun r =>
    decide (r.item_id = item ∧ (r.status = .pending ∨ r.status = .completed)))

/-- The freshly inserted row of `insert_query`:
`INSERT INTO moderation_results (item_id, status) VALUES ($1, 'pending')`. -/
def newPendingRow (s : DB) (item : Int) : TaskRow :=
  ⟨s.nextId, item, .pending, none, none, none, s.now, none⟩

/-- `insert_query` with `ON CONFLICT (item_id) WHERE status = 'pending' DO
NOTHING RETURNING ...`: the insert is rejected (no row returned, state
unchanged) exactly when a pending row for `item_id` already exists. -/
def insertPendingQ (s : DB) (item : Int) : Option TaskRow × DB :=
  if s.rows.any (fun r => decide (r.item_id = item ∧ r.status = .pending)) then
    (none, s)
  else
    (some (newPendingRow s item),
      { s with rows := s.rows ++ [newPendingRow s item], nextId := s.nextId + 1 })

/-- Error taxonomy of `app/errors.py` (the storage-layer kinds). -/
inductive AppError where
  | storageUnavailable
  | sellerNotFound
  | advertisementAlreadyExists
  | userAlreadyExists
deriving DecidableEq, Repr

/-- Interference seen by `create_pending` at its suspension points: `f1 ..
f4` are the state changes other actors commit between consecutive queries,
and `raiseK` makes the `k`-th `fetchrow` raise an infrastructure error
(caught by the `except Exception` clause). -/
structure Interf where
  f1 : DB → DB
  f2 : DB → DB
  f3 : DB → DB
  f4 : DB → DB
  raise0 : Bool
  raise1 : Bool
  raise2 : Bool
  raise3 : Bool
  raise4 : Bool

/-- No concurrent writers and no infrastructure failures. -/
def noInterf : Interf :=
  ⟨id, id, id, id, false, false, false, false, false⟩

/-- Outcome of `ModerationResultStorage.create_pending`: the returned row
or the raised error, the final database state, and how many times the
insert statement was attempted. -/
structure CPResult where
  out : Except AppError TaskRow
  db : DB
  insertAttempts : Nat
deriving Repr

/-- `ModerationResultStorage.create_pending`: read the preferred existing
row; otherwise insert, and on conflict re-read then retry the insert once
(the `for _ in range(2)` loop unrolled); every failure surfaces as
`StorageUnavailable`. -/
def create_pending (θ : Interf) (s : DB) (item : Int) : CPResult :=
  if θ.raise0 then ⟨.error .storageUnavailable, s, 0⟩ else
  match selectExisting (candidates s item) with
  | some r => ⟨.ok r, s, 0⟩
  | none =>
    if θ.raise1 then ⟨.error .storageUnavailable, θ.f1 s, 0⟩ else
    match insertPendingQ (θ.f1 s) item with
    | (some r, s1') => ⟨.ok r, s1', 1⟩
    | (none, s1') =>
      if θ.raise2 then ⟨.error .storageUnavailable, θ.f2 s1', 1⟩ else
      match selectExisting (candidates (θ.f2 s1') item) with
      | some r => ⟨.ok r, θ.f2 s1', 1⟩
      | none =>
        if θ.raise3 then ⟨.error .storageUnavailable, θ.f3 (θ.f2 s1'), 1⟩ else
        match insertPendingQ (θ.f3 (θ.f2 s1')) item with
        | (some r, s3') => ⟨.ok r, s3', 2⟩
        | (none, s3') =>
          if θ.raise4 then ⟨.error .storageUnavailable, θ.f4 s3', 2⟩ else
          match selectExisting (candidates (θ.f4 s3') item) with
          | some r => ⟨.ok r, θ.f4 s3', 2⟩
          | none => ⟨.error .storageUnavailable, θ.f4 s3', 2⟩

theorem orderedBefore_refl (a : TaskRow) : orderedBefore a a :=
  Or.inr ⟨rfl, le_refl _⟩

theorem orderedBefore_total (a b : TaskRow) :
    orderedBefore a b ∨ orderedBefore b a := by
  unfold orderedBefore
  rcases lt_trichotomy (statusRank a.status) (statusRank b.status) with h | h | h
  · exact Or.inl (Or.inl h)
  · rcases le_total b.id a.id with h' | h'
    · exact Or.inl (Or.inr ⟨h, h'⟩)
    · exact Or.inr (Or.inr ⟨h.symm, h'⟩)
  · exact Or.inr (Or.inl h)

theorem orderedBefore_trans {a b c : TaskRow}
    (hab : orderedBefore a b) (hbc : orderedBefore b c) : orderedBefore a c := by
  unfold orderedBefore at *
  rcases hab with h | ⟨h, h'⟩ <;> rcases hbc with g | ⟨g, g'⟩
  · exact Or.inl (h.trans g)
  · exact Or.inl (lt_of_lt_of_eq h g)
  · exact Or.inl (lt_of_eq_of_lt h g)
  · exact Or.inr ⟨h.trans g, g'.trans h'⟩

theorem better_eq_or (a b : TaskRow) : better a b = a ∨ better a b = b := by
  unfold better; split <;> simp

theorem better_before_left (a b : TaskRow) : orderedBefore (better a b) a := by
  unfold better; split
  · exact orderedBefore_refl a
  · rcases orderedBefore_total a b with h | h
    · contradiction
    · exact h

theorem better_before_right (a b : TaskRow) : orderedBefore (better a b) b := by
  unfold better; split
  · assumption
  · exact orderedBefore_refl b

theorem selectExisting_go (l : List TaskRow) (a : TaskRow) :
    ∃ r, l.foldl (fun acc r => match acc with
        | none => some r
        | some x => some (better x r)) (some a) = some r ∧
      (r = a ∨ r ∈ l) ∧ orderedBefore r a ∧ ∀ q ∈ l, orderedBefore r q := by
  induction l generalizing a with
  | nil => exact ⟨a, rfl, Or.inl rfl, orderedBefore_refl a, by simp⟩
  | cons x xs ih =>
    obtain ⟨r, hfold, hmem, hbef, hall⟩ := ih (better a x)
    refine ⟨r, hfold, ?_, ?_, ?_⟩
    · rcases hmem with h | h
      · rcases better_eq_or a x with g | g
        · exact Or.inl (h.trans g)
        · exact Or.inr (by simp [h, g])
      · exact Or.inr (by simp [h])
    · exact orderedBefore_trans hbef (better_before_left a x)
    · intro q hq
      rcases List.mem_cons.mp hq with h | h
      · exact h ▸ orderedBefore_trans hbef (better_before_right a x)
      · exact hall q h

theorem selectExisting_some {l : List TaskRow} {r : TaskRow}
    (h : selectExisting l = some r) :
    r ∈ l ∧ ∀ q ∈ l, orderedBefore r q := by
  cases l with
  | nil => simp [selectExisting] at h
  | cons x xs =>
    obtain ⟨r', hfold, hmem, hbef, hall⟩ := selectExisting_go xs x
    have : r' = r := by
      have := h
      simp only [selectExisting, List.foldl_cons] at this
      rw [hfold] at this
      exact Option.some.inj this
    subst this
    refine ⟨?_, ?_⟩
    · rcases hmem with h' | h'
      · simp [h']
      · simp [h']
    · intro q hq
      rcases List.mem_cons.mp hq with h' | h'
      · exact h' ▸ hbef
      · exact hall q h'

theorem selectExisting_eq_none {l : List TaskRow} :
    selectExisting l = none ↔ l = [] := by
  constructor
  · intro h
    cases l with
    | nil => rfl
    | cons x xs =>
      obtain ⟨r', hfold, _, _, _⟩ := selectExisting_go xs x
      simp only [selectExisting, List.foldl_cons] at h
      rw [hfold] at h
      exact absurd h (by simp)
  · intro h; subst h; rfl

theorem no_candidates_no_pending {s : DB} {item : Int}
    (h : selectExisting (candidates s item) = none) :
    ¬ ∃ r ∈ s.rows, r.item_id = item ∧ r.status = Status.pending := by
  have hc : candidates s item = [] := selectExisting_eq_none.mp h
  rintro ⟨r, hr, hitem, hpend⟩
  have : r ∈ candidates s item :=
    List.mem_filter.mpr ⟨hr, by simp [hitem, hpend]⟩
  rw [hc] at this
  exact absurd this (List.not_mem_nil r)

/-- C1: for every `item_id`, `create_pending` returns the existing task when one
exists with status pending or completed — preferring a pending task, breaking
ties by highest id, and writing nothing; otherwise it inserts a new pending row
and returns it; after an insert rejected by the partial-unique constraint it
re-reads the existing row and retries the insert at most once; any
infrastructure error surfaces as `StorageUnavailable`. -/
theorem create_pending_spec (s : DB) (item : Int) :
    (∀ r, selectExisting (candidates s item) = some r →
      (∀ θ : Interf, θ.raise0 = false → create_pending θ s item = ⟨.ok r, s, 0⟩) ∧
      r ∈ s.rows ∧ r.item_id = item ∧
      (r.status = .pending ∨ r.status = .completed) ∧
      (∀ q ∈ s.rows, q.item_id = item →
        (q.status = .pending ∨ q.status = .completed) →
        (q.status = .pending → r.status = .pending) ∧
        (q.status = r.status → q.id ≤ r.id))) ∧
    (selectExisting (candidates s item) = none →
      create_pending noInterf s item =
        ⟨.ok (newPendingRow s item),
         { s with rows := s.rows ++ [newPendingRow s item], nextId := s.nextId + 1 },
         1⟩ ∧
      (newPendingRow s item).status = .pending) ∧
    (∀ θ : Interf, ∀ s₁ r,
      θ.raise0 = false → θ.raise1 = false → θ.raise2 = false →
      selectExisting (candidates s item) = none →
      insertPendingQ (θ.f1 s) item = (none, s₁) →
      selectExisting (candidates (θ.f2 s₁) item) = some r →
      create_pending θ s item = ⟨.ok r, θ.f2 s₁, 1⟩) ∧
    (∀ θ : Interf, (create_pending θ s item).insertAttempts ≤ 2) ∧
    (∀ θ : Interf, ∀ e, (create_pending θ s item).out = .error e →
      e = .storageUnavailable) := by
  refine ⟨?_, ?_, ?_, ?_, ?_⟩
  · intro r hsel
    obtain ⟨hmem, hall⟩ := selectExisting_some hsel
    obtain ⟨hrows, hprops⟩ := List.mem_filter.mp hmem
    simp only [decide_eq_true_eq] at hprops
    refine ⟨?_, hrows, hprops.1, hprops.2, ?_⟩
    · intro θ h0
      simp [create_pending, h0, hsel]
    · intro q hq hqitem hqstat
      have hqc : q ∈ candidates s item :=
        List.mem_filter.mpr ⟨hq, by simp [hqitem, hqstat]⟩
      have hord := hall q hqc
      constructor
      · intro hqpend
        rcases hprops.2 with h | h
        · exact h
        · exfalso
          rcases hord with hlt | ⟨heq, _⟩
          · simp [statusRank, h, hqpend] at hlt
          · simp [statusRank, h, hqpend] at heq
      · intro hsame
        rcases hord with hlt | ⟨_, hle⟩
        · rw [hsame] at hlt
          exact absurd hlt (lt_irrefl _)
        · exact hle
  · intro hsel
    have hnp := no_candidates_no_pending hsel
    constructor
    · simp [create_pending, noInterf, hsel, insertPendingQ, hnp]
    · rfl
  · intro θ s₁ r h0 h1 h2 hsel hins hsel2
    simp [create_pending, h0, h1, h2, hsel, hins, hsel2]
  · intro θ
    unfold create_pending
    repeat' split
    all_goals simp
  · intro θ e h
    unfold create_pending at h
    repeat' split at h
    all_goals first
      | exact Except.noConfusion h
      | exact (Except.error.inj h).symm

/-- Concrete completed row used to instantiate `create_pending_spec`. -/
def rowC1 : TaskRow := ⟨5, 7, .completed, some true, some 1, none, 0, some 1⟩

/-- Concrete database holding only `rowC1`. -/
def dbC1 : DB := ⟨[rowC1], 6, 2⟩

/-- Witness for C1: on a store holding one completed task for item 7,
`create_pending` returns that task and writes nothing. -/
theorem create_pending_spec_witness :
    create_pending noInterf dbC1 7 = ⟨.ok rowC1, dbC1, 0⟩ :=
  ((create_pending_spec dbC1 7).1 rowC1 rfl).1 noInterf rfl

/-- `SELECT id ... ORDER BY id ASC ... LIMIT 1`: the smallest id of the list,
`none` on an empty list. -/
def minId : List Nat → Option Nat
  | [] => none
  | x :: xs =>
    match minId xs with
    | none => some x
    | some m => some (min x m)

/-- Ids of the rows matched by `WHERE item_id = $1 AND status = 'pending'`. -/
def pendingIds (s : DB) (item : Int) : List Nat :=
  (s.rows.filter (fun r => decide (r.item_id = item ∧ r.status = .pending))).map
    TaskRow.id

/-- The `SET` clause of `_mark_completed`. -/
def updateCompleted (now : Nat) (viol : Bool) (prob : ℚ) (r : TaskRow) : TaskRow :=
  { r with status := .completed, is_violation := some viol,
           probability := some prob, error_message := none,
           processed_at := some now }

/-- The `SET` clause of `_mark_failed` (the message is already truncated). -/
def updateFailed (now : Nat) (msg : String) (r : TaskRow) : TaskRow :=
  { r with status := .failed, is_violation := none, probability := none,
           error_message := some msg, processed_at := some now }

/-- `ModerationWorker._mark_completed`: claim the oldest pending row for
`item_id` (the `FOR UPDATE SKIP LOCKED` CTE, here in its uncontended
sequential semantics), set it completed, and return its id. -/
def mark_completed (s : DB) (item : Int) (viol : Bool) (prob : ℚ) :
    Option Nat × DB :=
  match minId (pendingIds s item) with
  | none => (none, s)
  | some tid =>
    (some tid,
      { s with rows := s.rows.map (fun r =>
          if r.id = tid then updateCompleted s.now viol prob r else r) })

/-- `ModerationWorker._mark_failed`: same claim discipline; stores
`error_message[:1000]`. -/
def mark_failed (s : DB) (item : Int) (msg : String) : Option Nat × DB :=
  match minId (pendingIds s item) with
  | none => (none, s)
  | some tid =>
    (some tid,
      { s with rows := s.rows.map (fun r =>
          if r.id = tid then updateFailed s.now (msg.take 1000) r else r) })

theorem minId_eq_none {l : List Nat} : minId l = none ↔ l = [] := by
  cases l with
  | nil => simp [minId]
  | cons x xs =>
    simp only [minId]
    cases minId xs <;> simp

theorem minId_mem {l : List Nat} {m : Nat} (h : minId l = some m) : m ∈ l := by
  induction l with
  | nil => simp [minId] at h
  | cons x xs ih =>
    simp only [minId] at h
    cases hxs : minId xs with
    | none =>
      rw [hxs] at h
      simp only [Option.some.injEq] at h
      simp [← h]
    | some m' =>
      rw [hxs] at h
      simp only [Option.some.injEq] at h
      rcases min_cases x m' with ⟨heq, _⟩ | ⟨heq, _⟩
      · rw [heq] at h; simp [← h]
      · rw [heq] at h
        exact List.mem_cons_of_mem x (ih (h ▸ hxs))

theorem minId_le {l : List Nat} :
    ∀ {m : Nat}, minId l = some m → ∀ x ∈ l, m ≤ x := by
  induction l with
  | nil => intro m h; simp [minId] at h
  | cons x xs ih =>
    intro m h y hy
    simp only [minId] at h
    cases hxs : minId xs with
    | none =>
      rw [hxs] at h
      simp only [Option.some.injEq] at h
      have hnil := minId_eq_none.mp hxs
      subst hnil
      rcases List.mem_cons.mp hy with h' | h'
      · subst h'; omega
      · exact absurd h' (List.not_mem_nil y)
    | some m' =>
      rw [hxs] at h
      simp only [Option.some.injEq] at h
      rcases List.mem_cons.mp hy with h' | h'
      · subst h'; rw [← h]; exact min_le_left _ _
      · exact le_trans (h ▸ min_le_right x m') (ih hxs y h')

/-- Membership in `pendingIds` unpacked to a witnessing row. -/
theorem pendingIds_mem {s : DB} {item : Int} {tid : Nat}
    (h : tid ∈ pendingIds s item) :
    ∃ r ∈ s.rows, r.id = tid ∧ r.item_id = item ∧ r.status = .pending := by
  obtain ⟨r, hr, hid⟩ := List.mem_map.mp h
  obtain ⟨hrows, hp⟩ := List.mem_filter.mp hr
  simp only [decide_eq_true_eq] at hp
  exact ⟨r, hrows, hid, hp.1, hp.2⟩

theorem mem_pendingIds {s : DB} {item : Int} {r : TaskRow} (hr : r ∈ s.rows)
    (hitem : r.item_id = item) (hpend : r.status = .pending) :
    r.id ∈ pendingIds s item :=
  List.mem_map.mpr ⟨r, List.mem_filter.mpr ⟨hr, by simp [hitem, hpend]⟩, rfl⟩

/-- C2: `claim_and_complete` selects the oldest pending task for `item_id`
(smallest id), sets `status=completed`, stores `is_violation` and
`probability`, sets `processed_at` to the current time and clears
`error_message`, returning the claimed id; with no pending row it returns
absent and changes nothing. -/
theorem claim_and_complete_spec (s : DB) (item : Int) (viol : Bool) (prob : ℚ) :
    (∀ tid s', mark_completed s item viol prob = (some tid, s') →
      (∃ r ∈ s.rows, r.id = tid ∧ r.item_id = item ∧ r.status = .pending ∧
        { r with status := .completed, is_violation := some viol,
                 probability := some prob, error_message := none,
                 processed_at := some s.now } ∈ s'.rows) ∧
      (∀ q ∈ s.rows, q.item_id = item → q.status = .pending → tid ≤ q.id) ∧
      (∀ q ∈ s.rows, q.id ≠ tid → q ∈ s'.rows) ∧
      s'.rows = s.rows.map (fun q =>
        if q.id = tid then updateCompleted s.now viol prob q else q)) ∧
    ((∀ q ∈ s.rows, q.item_id = item → q.status ≠ .pending) →
      mark_completed s item viol prob = (none, s)) := by
  constructor
  · intro tid s' h
    cases hmin : minId (pendingIds s item) with
    | none => simp [mark_completed, hmin] at h
    | some tid' =>
      simp only [mark_completed, hmin] at h
      obtain ⟨htid, hs'⟩ := Prod.mk.injEq .. ▸ h
      have htid' : tid' = tid := Option.some.inj htid
      subst htid'
      refine ⟨?_, ?_, ?_, ?_⟩
      · obtain ⟨r, hr, hid, hitem, hpend⟩ := pendingIds_mem (minId_mem hmin)
        refine ⟨r, hr, hid, hitem, hpend, ?_⟩
        rw [← hs']
        exact List.mem_map.mpr ⟨r, hr, by simp [hid, updateCompleted]⟩
      · intro q hq hqitem hqpend
        exact minId_le hmin q.id (mem_pendingIds hq hqitem hqpend)
      · intro q hq hqne
        rw [← hs']
        exact List.mem_map.mpr ⟨q, hq, by simp [hqne]⟩
      · rw [← hs']
  · intro hno
    have : pendingIds s item = [] := by
      by_contra hne
      obtain ⟨x, hx⟩ := List.exists_mem_of_ne_nil _ hne
      obtain ⟨r, hr, _, hitem, hpend⟩ := pendingIds_mem hx
      exact hno r hr hitem hpend
    simp [mark_completed, minId_eq_none.mpr this]

/-- Concrete rows used to instantiate the claim/transition theorems: two
pending tasks and one completed task for item 3. -/
def rowP1 : TaskRow := ⟨10, 3, .pending, none, none, none, 0, none⟩

/-- Second, younger pending task for item 3. -/
def rowP2 : TaskRow := ⟨11, 3, .pending, none, none, none, 1, none⟩

/-- A completed task for item 3. -/
def rowD1 : TaskRow := ⟨2, 3, .completed, some false, some 1, none, 0, some 1⟩

/-- Store holding `rowD1`, `rowP1`, `rowP2`. -/
def dbC2 : DB := ⟨[rowD1, rowP1, rowP2], 12, 5⟩

/-- Witness for C2: on `dbC2`, `claim_and_complete` for item 3 claims the
oldest pending row (id 10) and the updated row carries the committed
verdict. -/
theorem claim_and_complete_spec_witness :
    ∃ r ∈ dbC2.rows, r.id = 10 ∧ r.item_id = 3 ∧ r.status = .pending ∧
      { r with status := .completed, is_violation := some true,
               probability := some 1, error_message := none,
               processed_at := some dbC2.now } ∈
        (mark_completed dbC2 3 true 1).2.rows :=
  (((claim_and_complete_spec dbC2 3 true 1).1 10 (mark_completed dbC2 3 true 1).2
    (by rfl)).1)

/-- `create_pending` with no interference: a hit on the first read returns
that row and writes nothing. -/
theorem create_pending_hit {s : DB} {item : Int} {r : TaskRow} (θ : Interf)
    (h0 : θ.raise0 = false) (hsel : selectExisting (candidates s item) = some r) :
    create_pending θ s item = ⟨.ok r, s, 0⟩ := by
  simp [create_pending, h0, hsel]

/-- `create_pending` with no interference: on a miss the first insert
succeeds and the fresh pending row is returned. -/
theorem create_pending_noInterf_insert {s : DB} {item : Int}
    (hsel : selectExisting (candidates s item) = none) :
    create_pending noInterf s item =
      ⟨.ok (newPendingRow s item),
       { s with rows := s.rows ++ [newPendingRow s item],
                nextId := s.nextId + 1 }, 1⟩ := by
  have hnp := no_candidates_no_pending hsel
  simp [create_pending, noInterf, hsel, insertPendingQ, hnp]

/-- Rows with distinct ids are distinct rows (the `id` column is the
primary key). -/
theorem row_id_injective {s : DB}
    (hnodup : (s.rows.map TaskRow.id).Nodup) {p q : TaskRow}
    (hp : p ∈ s.rows) (hq : q ∈ s.rows) (h : p.id = q.id) : p = q :=
  List.inj_on_of_nodup_map hnodup hp hq h

/-- C3: once a task is completed or failed it never changes: the claim
updates touch only rows whose current status is pending (yielding
`pending → completed` and `pending → failed` only), and `create_pending`
only ever inserts pending rows. -/
theorem terminal_states_immutable_spec (s : DB) (item : Int) (viol : Bool)
    (prob : ℚ) (msg : String)
    (hnodup : (s.rows.map TaskRow.id).Nodup) :
    (∀ r ∈ s.rows, r.status ≠ .pending →
      r ∈ (mark_completed s item viol prob).2.rows ∧
      r ∈ (mark_failed s item msg).2.rows) ∧
    (∀ r' ∈ (mark_completed s item viol prob).2.rows,
      r' ∈ s.rows ∨ ∃ r ∈ s.rows, r.status = .pending ∧
        r' = updateCompleted s.now viol prob r) ∧
    (∀ r' ∈ (mark_failed s item msg).2.rows,
      r' ∈ s.rows ∨ ∃ r ∈ s.rows, r.status = .pending ∧
        r' = updateFailed s.now (msg.take 1000) r) ∧
    (∀ r' ∈ (create_pending noInterf s item).db.rows,
      r' ∈ s.rows ∨ r'.status = .pending) := by
  refine ⟨?_, ?_, ?_, ?_⟩
  · intro r hr hterm
    constructor
    · cases hmin : minId (pendingIds s item) with
      | none => simp [mark_completed, hmin]; exact hr
      | some tid =>
        obtain ⟨p, hp, hpid, _, hppend⟩ := pendingIds_mem (minId_mem hmin)
        have hne : r.id ≠ tid := by
          intro he
          exact hterm ((row_id_injective hnodup hr hp (he.trans hpid.symm)) ▸ hppend)
        simp only [mark_completed, hmin]
        exact List.mem_map.mpr ⟨r, hr, by simp [hne]⟩
    · cases hmin : minId (pendingIds s item) with
      | none => simp [mark_failed, hmin]; exact hr
      | some tid =>
        obtain ⟨p, hp, hpid, _, hppend⟩ := pendingIds_mem (minId_mem hmin)
        have hne : r.id ≠ tid := by
          intro he
          exact hterm ((row_id_injective hnodup hr hp (he.trans hpid.symm)) ▸ hppend)
        simp only [mark_failed, hmin]
        exact List.mem_map.mpr ⟨r, hr, by simp [hne]⟩
  · intro r' hr'
    cases hmin : minId (pendingIds s item) with
    | none => simp [mark_completed, hmin] at hr'; exact Or.inl hr'
    | some tid =>
      obtain ⟨p, hp, hpid, _, hppend⟩ := pendingIds_mem (minId_mem hmin)
      simp only [mark_completed, hmin] at hr'
      obtain ⟨q, hq, hq'⟩ := List.mem_map.mp hr'
      by_cases he : q.id = tid
      · right
        refine ⟨q, hq, ?_, ?_⟩
        · exact (row_id_injective hnodup hq hp (he.trans hpid.symm)) ▸ hppend
        · rw [← hq']; simp [he]
      · left
        rw [← hq']; simpa [he] using hq
  · intro r' hr'
    cases hmin : minId (pendingIds s item) with
    | none => simp [mark_failed, hmin] at hr'; exact Or.inl hr'
    | some tid =>
      obtain ⟨p, hp, hpid, _, hppend⟩ := pendingIds_mem (minId_mem hmin)
      simp only [mark_failed, hmin] at hr'
      obtain ⟨q, hq, hq'⟩ := List.mem_map.mp hr'
      by_cases he : q.id = tid
      · right
        refine ⟨q, hq, ?_, ?_⟩
        · exact (row_id_injective hnodup hq hp (he.trans hpid.symm)) ▸ hppend
        · rw [← hq']; simp [he]
      · left
        rw [← hq']; simpa [he] using hq
  · intro r' hr'
    cases hsel : selectExisting (candidates s item) with
    | some r =>
      rw [create_pending_hit noInterf rfl hsel] at hr'
      exact Or.inl hr'
    | none =>
      rw [create_pending_noInterf_insert hsel] at hr'
      rcases List.mem_append.mp hr' with h | h
      · exact Or.inl h
      · right
        have : r' = newPendingRow s item := by simpa using h
        rw [this]; rfl

/-- Witness for C3: on `dbC2` the completed row `rowD1` survives both claim
updates unchanged. -/
theorem terminal_states_immutable_spec_witness :
    rowD1 ∈ (mark_completed dbC2 3 true 1).2.rows ∧
    rowD1 ∈ (mark_failed dbC2 3 "boom").2.rows :=
  (terminal_states_immutable_spec dbC2 3 true 1 "boom" (by decide)).1 rowD1
    (by simp [dbC2]) (by decide)

/-- One row of the `advertisements` table. -/
structure AdvertisementRecord where
  item_id : Int
  seller_id : Nat
  name : String
  description : String
  category : Nat
  images_qty : Nat
deriving DecidableEq, Repr

/-- `AdvertisementRepository.close`'s result shape. -/
structure AdvertisementCloseResult where
  item_id : Int
  moderation_result_ids : List Nat
deriving DecidableEq, Repr

/-- `AdvertisementStorage.close`: the single transactional statement whose
CTEs delete every `moderation_results` row for `item_id` (returning their
ids, aggregated in ascending id order) and the `advertisements` row; the
final `SELECT ... FROM deleted_advertisement` yields a row only when the
advertisement existed, but both deletes execute regardless. -/
def close_query (adverts : List AdvertisementRecord) (s : DB) (item : Int) :
    Option (Int × List Nat) × List AdvertisementRecord × DB :=
  (if adverts.any (fun a => decide (a.item_id = item)) then
     some (item,
       ((s.rows.filter (fun r => decide (r.item_id = item))).map TaskRow.id).mergeSort)
   else none,
   adverts.filter (fun a => decide (a.item_id ≠ item)),
   { s with rows := s.rows.filter (fun r => decide (r.item_id ≠ item)) })

/-- `AdvertisementRepository.close`: maps the raw record into
`AdvertisementCloseResult`, passing `None` through. -/
def repository_close (adverts : List AdvertisementRecord) (s : DB) (item : Int) :
    Option AdvertisementCloseResult × List AdvertisementRecord × DB :=
  match close_query adverts s item with
  | (none, a', s') => (none, a', s')
  | (some (i, ids), a', s') => (some ⟨i, ids⟩, a', s')

theorem filter_length_lt {α : Type} {p : α → Bool} {l : List α} {x : α}
    (hx : x ∈ l) (hpx : p x = false) : (l.filter p).length < l.length := by
  induction l with
  | nil => cases hx
  | cons a as ih =>
    rcases List.mem_cons.mp hx with h | h
    · subst h
      rw [List.filter_cons, hpx]
      simp only [List.length_cons]
      exact Nat.lt_succ_of_le (List.length_filter_le p as)
    · rw [List.filter_cons]
      by_cases hpa : p a
      · simp only [hpa, if_true, List.length_cons]
        exact Nat.succ_lt_succ (ih h)
      · simp only [hpa, if_false, List.length_cons]
        exact Nat.lt_succ_of_lt (ih h)

/-- C6: inside one transaction, `close_listing` deletes all task rows for
`item_id` (returning their ids) and the listing row, and returns both;
when no listing row exists it returns absent regardless of orphan tasks. -/
theorem close_listing_spec (adverts : List AdvertisementRecord) (s : DB)
    (item : Int) :
    ((∃ a ∈ adverts, a.item_id = item) →
      ∃ ids, close_query adverts s item =
        (some (item, ids),
         adverts.filter (fun a => decide (a.item_id ≠ item)),
         { s with rows := s.rows.filter (fun r => decide (r.item_id ≠ item)) }) ∧
        ids.Perm ((s.rows.filter (fun r => decide (r.item_id = item))).map
          TaskRow.id) ∧
        ids.Sorted (· ≤ ·) ∧
        repository_close adverts s item =
          (some ⟨item, ids⟩, (close_query adverts s item).2)) ∧
    ((¬ ∃ a ∈ adverts, a.item_id = item) →
      (close_query adverts s item).1 = none ∧
      (repository_close adverts s item).1 = none) ∧
    (∀ r ∈ (close_query adverts s item).2.2.rows, r.item_id ≠ item) ∧
    (∀ r ∈ s.rows, r.item_id ≠ item → r ∈ (close_query adverts s item).2.2.rows) ∧
    (∀ a ∈ (close_query adverts s item).2.1, a.item_id ≠ item) ∧
    (∀ a ∈ adverts, a.item_id ≠ item → a ∈ (close_query adverts s item).2.1) := by
  refine ⟨?_, ?_, ?_, ?_, ?_, ?_⟩
  · intro hex
    have hany : adverts.any (fun a => decide (a.item_id = item)) = true := by
      simpa using hex
    refine ⟨((s.rows.filter (fun r => decide (r.item_id = item))).map
      TaskRow.id).mergeSort, ?_, ?_, ?_, ?_⟩
    · simp [close_query, hany]
    · exact List.mergeSort_perm _ _
    · exact List.sorted_mergeSort' _
    · simp [repository_close, close_query, hany]
  · intro hnone
    have hany : adverts.any (fun a => decide (a.item_id = item)) = false := by
      simp only [List.any_eq_false, decide_eq_true_eq]
      intro a ha h
      exact hnone ⟨a, ha, h⟩
    constructor
    · simp [close_query, hany]
    · simp [repository_close, close_query, hany]
  · intro r hr
    have := (List.mem_filter.mp hr).2
    simpa using this
  · intro r hr hne
    exact List.mem_filter.mpr ⟨hr, by simpa using hne⟩
  · intro a ha
    have := (List.mem_filter.mp ha).2
    simpa using this
  · intro a ha hne
    exact List.mem_filter.mpr ⟨ha, by simpa using hne⟩

/-- Concrete listing row used to instantiate the closure theorems. -/
def advC6 : AdvertisementRecord := ⟨3, 1, "ad", "text", 1, 2⟩

/-- Witness for C6: closing item 3 on a store with listing `advC6` and the
tasks of `dbC2` returns the task ids `[2, 10, 11]` and deletes all of them
together with the listing. -/
theorem close_listing_spec_witness :
    ∃ ids, close_query [advC6] dbC2 3 =
      (some (3, ids),
       [advC6].filter (fun a => decide (a.item_id ≠ 3)),
       { dbC2 with rows := dbC2.rows.filter (fun r => decide (r.item_id ≠ 3)) }) ∧
      ids.Perm ((dbC2.rows.filter (fun r => decide (r.item_id = 3))).map
        TaskRow.id) ∧
      ids.Sorted (· ≤ ·) ∧
      repository_close [advC6] dbC2 3 =
        (some ⟨3, ids⟩, (close_query [advC6] dbC2 3).2) :=
  (close_listing_spec [advC6] dbC2 3).1 ⟨advC6, by simp, rfl⟩

/-- C10: when no listing row exists but orphan task rows do, `close`
returns absent yet still deletes those orphan rows: the
`moderation_results` delete executes regardless of the advertisement
delete matching. -/
theorem close_orphan_tasks_spec (adverts : List AdvertisementRecord) (s : DB)
    (item : Int) (hno : ∀ a ∈ adverts, a.item_id ≠ item)
    (horphan : ∃ r ∈ s.rows, r.item_id = item) :
    (close_query adverts s item).1 = none ∧
    (close_query adverts s item).2.2.rows =
      s.rows.filter (fun r => decide (r.item_id ≠ item)) ∧
    (∀ r ∈ (close_query adverts s item).2.2.rows, r.item_id ≠ item) ∧
    (close_query adverts s item).2.2.rows.length < s.rows.length := by
  have hany : adverts.any (fun a => decide (a.item_id = item)) = false := by
    simp only [List.any_eq_false, decide_eq_true_eq]
    exact hno
  obtain ⟨r, hr, hritem⟩ := horphan
  refine ⟨by simp [close_query, hany], rfl, ?_, ?_⟩
  · intro q hq
    have := (List.mem_filter.mp hq).2
    simpa using this
  · exact filter_length_lt hr (by simpa using hritem)

/-- Witness for C10: no listing, but `dbC2`'s three tasks for item 3 exist;
closure returns absent and leaves zero task rows. -/
theorem close_orphan_tasks_spec_witness :
    (close_query [] dbC2 3).1 = none ∧
    (close_query [] dbC2 3).2.2.rows =
      dbC2.rows.filter (fun r => decide (r.item_id ≠ 3)) ∧
    (∀ r ∈ (close_query [] dbC2 3).2.2.rows, r.item_id ≠ 3) ∧
    (close_query [] dbC2 3).2.2.rows.length < dbC2.rows.length :=
  close_orphan_tasks_spec [] dbC2 3 (by simp) ⟨rowP1, by simp [dbC2], rfl⟩

/-- JSON values as produced by `json.loads`: Python distinguishes booleans
from integers from other numbers, and `json.loads` yields exactly one of
these shapes. -/
inductive J where
  | null
  | b (v : Bool)
  | i (n : Int)
  | num (q : ℚ)
  | s (v : String)
  | arr (elts : List J)
  | obj (fields : List (String × J))

/-- Python `dict` built by `json.loads`: a later duplicate key overwrites
an earlier one, so lookup returns the last occurrence. -/
def jlookup (fields : List (String × J)) (key : String) : Option J :=
  match fields with
  | [] => none
  | (k, v) :: rest =>
    match jlookup rest key with
    | some w => some w
    | none => if k = key then some v else none

/-- Python `isinstance(v, int)` (`bool` subclasses `int`: `True` is 1,
`False` is 0); `none` when the check fails. -/
def pyIntVal : J → Option Int
  | .i n => some n
  | .b true => some 1
  | .b false => some 0
  | _ => none

/-- The dead-letter envelope built by `ModerationWorker._send_to_dlq`. -/
structure DlqMessage where
  original_message : J
  error : String
  timestamp : String
  retry_count : Int

/-- The `parsed_payload` local of `_send_to_dlq`: an empty payload text
skips `json.loads` and yields `{}`; an undecodable one yields
`{"raw_payload": <text>}`.  `parsed` is the `json.loads` outcome on the
replacement-decoded text (`none` on `JSONDecodeError`). -/
def parsedPayloadOf (payloadText : String) (parsed : Option J) : J :=
  if payloadText = "" then .obj []
  else
    match parsed with
    | some j => j
    | none => .obj [("raw_payload", .s payloadText)]

/-- `ModerationWorker._send_to_dlq`, reduced to the envelope it publishes:
`retry_count` starts at 1 and becomes `retry_count + 1` when the parsed
dict carries a non-negative `isinstance`-int field; a non-dict payload is
wrapped as `{"raw_payload": <text>}`. -/
def send_to_dlq_body (error_message payloadText : String) (parsed : Option J)
    (timestamp : String) : DlqMessage :=
  match parsedPayloadOf payloadText parsed with
  | .obj fields =>
    { original_message := .obj fields
      error := error_message
      timestamp := timestamp
      retry_count :=
        match jlookup fields "retry_count" with
        | some v =>
          match pyIntVal v with
          | some n => if 0 ≤ n then n + 1 else 1
          | none => 1
        | none => 1 }
  | _ =>
    { original_message := .obj [("raw_payload", .s payloadText)]
      error := error_message
      timestamp := timestamp
      retry_count := 1 }

/-- C4 (amended): the envelope is `{original_message, error, timestamp,
retry_count}`; `original_message` is the decoded JSON when the payload
parses to a JSON *object* (a parseable non-object payload is wrapped as
`{raw_payload: <text>}` like an unparseable one, and an empty payload
yields `{}`); `retry_count` is `original_message.retry_count + 1` when
that field passes Python's `isinstance(int)` check (booleans included)
with value ≥ 0, else 1; the payload `{item_id:100, retry_count:2}` yields
`retry_count = 3`. -/
theorem dlq_envelope_spec (e text ts : String) (parsed : Option J) :
    ((send_to_dlq_body e text parsed ts).error = e) ∧
    ((send_to_dlq_body e text parsed ts).timestamp = ts) ∧
    (text = "" → (send_to_dlq_body e text parsed ts).original_message = .obj []
      ∧ (send_to_dlq_body e text parsed ts).retry_count = 1) ∧
    (∀ fields, text ≠ "" → parsed = some (.obj fields) →
      (send_to_dlq_body e text parsed ts).original_message = .obj fields ∧
      ((∃ v n, jlookup fields "retry_count" = some v ∧ pyIntVal v = some n ∧
          0 ≤ n ∧ (send_to_dlq_body e text parsed ts).retry_count = n + 1) ∨
        ((send_to_dlq_body e text parsed ts).retry_count = 1 ∧
          ∀ v, jlookup fields "retry_count" = some v →
            ∀ n, pyIntVal v = some n → n < 0))) ∧
    (text ≠ "" → parsed = none →
      (send_to_dlq_body e text parsed ts).original_message =
        .obj [("raw_payload", .s text)] ∧
      (send_to_dlq_body e text parsed ts).retry_count = 1) ∧
    (∀ j, text ≠ "" → parsed = some j → (∀ fields, j ≠ .obj fields) →
      (send_to_dlq_body e text parsed ts).original_message =
        .obj [("raw_payload", .s text)] ∧
      (send_to_dlq_body e text parsed ts).retry_count = 1) ∧
    ((send_to_dlq_body "Prediction failed"
        "\x7b\"item_id\": 100, \"retry_count\": 2\x7d"
        (some (.obj [("item_id", J.i 100), ("retry_count", J.i 2)]))
        ts).retry_count = 3) := by
  refine ⟨?_, ?_, ?_, ?_, ?_, ?_, ?_⟩
  · unfold send_to_dlq_body
    split <;> rfl
  · unfold send_to_dlq_body
    split <;> rfl
  · intro ht
    constructor <;> simp [send_to_dlq_body, parsedPayloadOf, ht, jlookup]
  · intro fields ht hp
    constructor
    · simp [send_to_dlq_body, parsedPayloadOf, ht, hp]
    · cases hv : jlookup fields "retry_count" with
      | none =>
        right
        refine ⟨?_, ?_⟩
        · simp [send_to_dlq_body, parsedPayloadOf, ht, hp, hv]
        · intro v hv'
          exact absurd hv' (by simp)
      | some v =>
        cases hn : pyIntVal v with
        | none =>
          right
          refine ⟨?_, ?_⟩
          · simp [send_to_dlq_body, parsedPayloadOf, ht, hp, hv, hn]
          · intro v' hv' n hn'
            rw [← Option.some.inj hv'] at hn'
            rw [hn] at hn'
            exact absurd hn' (by simp)
        | some n =>
          by_cases hge : 0 ≤ n
          · left
            refine ⟨v, n, rfl, hn, hge, ?_⟩
            simp [send_to_dlq_body, parsedPayloadOf, ht, hp, hv, hn, hge]
          · right
            refine ⟨?_, ?_⟩
            · simp [send_to_dlq_body, parsedPayloadOf, ht, hp, hv, hn, hge]
            · intro v' hv' n' hn'
              rw [← Option.some.inj hv'] at hn'
              rw [hn] at hn'
              have := Option.some.inj hn'
              omega
  · intro ht hp
    constructor <;> simp [send_to_dlq_body, parsedPayloadOf, ht, hp, jlookup]
  · intro j ht hp hnobj
    have hshape : ∀ fields,
        parsedPayloadOf text parsed ≠ .obj fields := by
      intro fields
      simp only [parsedPayloadOf, ht, if_false, hp]
      exact hnobj fields
    cases hj : parsedPayloadOf text parsed with
    | obj fields => exact absurd hj (by exact hshape fields)
    | null => constructor <;> simp [send_to_dlq_body, hj]
    | b v => constructor <;> simp [send_to_dlq_body, hj]
    | i n => constructor <;> simp [send_to_dlq_body, hj]
    | num q => constructor <;> simp [send_to_dlq_body, hj]
    | s v => constructor <;> simp [send_to_dlq_body, hj]
    | arr elts => constructor <;> simp [send_to_dlq_body, hj]
  · rfl

/-- Witness for C4: the S4/S6-style payload `{item_id:100, retry_count:2}`
is echoed as `original_message` and its retry counter is incremented. -/
theorem dlq_envelope_spec_witness :
    (send_to_dlq_body "Prediction failed"
        "\x7b\"item_id\": 100, \"retry_count\": 2\x7d"
        (some (.obj [("item_id", J.i 100), ("retry_count", J.i 2)]))
        "2024-01-01T00:00:00Z").original_message =
      .obj [("item_id", J.i 100), ("retry_count", J.i 2)] :=
  ((dlq_envelope_spec "Prediction failed"
      "\x7b\"item_id\": 100, \"retry_count\": 2\x7d"
      "2024-01-01T00:00:00Z"
      (some (.obj [("item_id", J.i 100), ("retry_count", J.i 2)]))).2.2.2.1
    [("item_id", J.i 100), ("retry_count", J.i 2)] (by decide) rfl).1

/-- Counterexample for C4 as stated: (1) the payload `123` is parseable
JSON but the envelope wraps it as `{raw_payload: "123"}` instead of the
decoded JSON; (2) a boolean `retry_count: true` passes Python's
`isinstance(int)` check, so the envelope carries `retry_count = 2` where
the claim's "else 1" applies; (3) an empty payload is not parseable yet
yields `{}` rather than `{raw_payload: ""}`. -/
theorem dlq_envelope_claim_counterexample :
    ((send_to_dlq_body "Invalid message payload" "123" (some (.i 123))
        "T").original_message = .obj [("raw_payload", .s "123")] ∧
      J.i 123 ≠ .obj [("raw_payload", .s "123")]) ∧
    ((send_to_dlq_body "Prediction failed" "\x7b\"retry_count\": true\x7d"
        (some (.obj [("retry_count", J.b true)])) "T").retry_count = 2 ∧
      ∀ n : Int, J.b true ≠ J.i n) ∧
    ((send_to_dlq_body "Invalid message payload" "" none "T").original_message
        = .obj [] ∧
      (J.obj []) ≠ .obj [("raw_payload", .s "")]) :=
  ⟨⟨rfl, by simp⟩, ⟨rfl, fun n h => J.noConfusion h⟩, ⟨rfl, by simp⟩⟩

/-- The `AdvertisementRow` dataclass read by
`ModerationWorker._load_advertisement`. -/
structure AdvertisementRow where
  item_id : Int
  seller_id : Nat
  is_verified_seller : Bool
  description : String
  category : Nat
  images_qty : Nat
deriving DecidableEq, Repr

/-- `ModelClient._build_features`: the normalized 4-feature vector
(`float` arithmetic modelled over `ℚ`). -/
def build_features (item : AdvertisementRow) : List ℚ :=
  [if item.is_verified_seller then 1 else 0,
   ((min item.images_qty 10 : Nat) : ℚ) / 10,
   ((item.description.length : Nat) : ℚ) / 1000,
   ((item.category : Nat) : ℚ) / 100]

/-- `ModelClient.predict_probability` with the trained model abstracted as
a function from feature vectors to probabilities. -/
def predict_probability (scorer : List ℚ → ℚ) (item : AdvertisementRow) : ℚ :=
  scorer (build_features item)

/-- `ModerationWorker._predict`: probability plus the 0.5-inclusive
threshold verdict. -/
def worker_predict (scorer : List ℚ → ℚ) (item : AdvertisementRow) :
    Bool × ℚ :=
  (decide (predict_probability scorer item ≥ (1 : ℚ)/2),
   predict_probability scorer item)

/-- `ModerationWorker._extract_item_id`: `parsed` is the
decode-then-`json.loads` outcome of the payload bytes (`none` covers
`UnicodeDecodeError` and `JSONDecodeError`); the body must be a dict and
`item_id` must pass `isinstance(int)` with value ≥ 0. -/
def extract_item_id (parsed : Option J) : Option Int :=
  match parsed with
  | some (.obj fields) =>
    match jlookup fields "item_id" with
    | some v =>
      match pyIntVal v with
      | some n => if n < 0 then none else some n
      | none => none
    | none => none
  | _ => none

/-- `ModerationWorker._compose_error_message`: append the stripped detail
only when non-empty. -/
def compose_error_message (base : String) (exc : Option String) : String :=
  match exc with
  | none => base
  | some d => if d.trim = "" then base else base ++ ": " ++ d.trim

/-- Environment of one `_handle_message` invocation: the outcome of the
advertisement read, the scorer call, and whether the two DB updates raise
(`completeRaises` carries the stringified exception). -/
structure WorkerEnv where
  adRead : Except String (Option AdvertisementRow)
  score : AdvertisementRow → Except String ℚ
  completeRaises : Option String
  failRaises : Bool

/-- Observable effects of one `_handle_message` invocation: final database
state, DLQ envelopes published, and the `claim_and_fail` /
`claim_and_complete` invocations made. -/
structure WorkerOut where
  db : DB
  dlq : List DlqMessage
  failCalls : List (Int × String)
  completeCalls : List (Int × Bool × ℚ)

/-- `ModerationWorker._handle_processing_error`: best-effort
`_mark_failed` (its own exceptions are swallowed) followed by the DLQ
publish. -/
def handle_processing_error (env : WorkerEnv) (ts text : String)
    (parsed : Option J) (s : DB) (item : Int) (msg : String) : WorkerOut :=
  { db := if env.failRaises then s else (mark_failed s item msg).2
    dlq := [send_to_dlq_body msg text parsed ts]
    failCalls := [(item, msg)]
    completeCalls := [] }

/-- `ModerationWorker._handle_message`: decode, resolve the listing, score,
commit; every failure funnels into `_handle_processing_error`, and an
undecodable payload goes straight to the DLQ with no task transition. -/
def handle_message (env : WorkerEnv) (ts text : String) (parsed : Option J)
    (s : DB) : WorkerOut :=
  match extract_item_id parsed with
  | none =>
    ⟨s, [send_to_dlq_body "Invalid message payload" text parsed ts], [], []⟩
  | some item =>
    match env.adRead with
    | .error detail =>
      handle_processing_error env ts text parsed s item
        (compose_error_message "Database read failed" (some detail))
    | .ok none =>
      handle_processing_error env ts text parsed s item "Advertisement not found"
    | .ok (some ad) =>
      match env.score ad with
      | .error detail =>
        handle_processing_error env ts text parsed s item
          (compose_error_message "Prediction failed" (some detail))
      | .ok p =>
        match env.completeRaises with
        | some detail =>
          handle_processing_error env ts text parsed s item
            (compose_error_message "Failed to update moderation result"
              (some detail))
        | none =>
          ⟨(mark_completed s item (decide (p ≥ (1 : ℚ)/2)) p).2, [], [],
           [(item, decide (p ≥ (1 : ℚ)/2), p)]⟩

/-- C5 (amended): the worker accepts a message only when the payload is a
UTF-8 JSON object whose `item_id` passes Python's `isinstance(int)` check
(integers and booleans, `True` read as 1) with value ≥ 0; every payload
failing this triggers no `claim_and_fail` and exactly one DLQ envelope
with error "Invalid message payload". -/
theorem invalid_payload_spec (env : WorkerEnv) (ts text : String)
    (parsed : Option J) (s : DB) :
    (extract_item_id parsed = none ↔
      ¬ ∃ fields v n, parsed = some (.obj fields) ∧
        jlookup fields "item_id" = some v ∧ pyIntVal v = some n ∧ 0 ≤ n) ∧
    (extract_item_id parsed = none →
      handle_message env ts text parsed s =
        ⟨s, [send_to_dlq_body "Invalid message payload" text parsed ts],
         [], []⟩ ∧
      (send_to_dlq_body "Invalid message payload" text parsed ts).error =
        "Invalid message payload") := by
  constructor
  · constructor
    · intro h hex
      obtain ⟨fields, v, n, hp, hv, hn, hge⟩ := hex
      subst hp
      simp [extract_item_id, hv, hn, not_lt.mpr hge] at h
    · intro hnex
      cases parsed with
      | none => rfl
      | some j =>
        cases j with
        | obj fields =>
          cases hv : jlookup fields "item_id" with
          | none => simp [extract_item_id, hv]
          | some v =>
            cases hn : pyIntVal v with
            | none => simp [extract_item_id, hv, hn]
            | some n =>
              by_cases hlt : n < 0
              · simp [extract_item_id, hv, hn, hlt]
              · exact absurd ⟨fields, v, n, rfl, hv, hn, by omega⟩ hnex
        | null => rfl
        | b v => rfl
        | i n => rfl
        | num q => rfl
        | s v => rfl
        | arr elts => rfl
  · intro h
    refine ⟨by simp [handle_message, h], ?_⟩
    unfold send_to_dlq_body
    split <;> rfl

/-- Worker environment in which the advertisement read finds nothing. -/
def envAdMissing : WorkerEnv :=
  ⟨.ok none, fun _ => .error "scorer unused", none, false⟩

/-- An empty task store. -/
def dbEmpty : DB := ⟨[], 1, 0⟩

/-- Witness for C5: the S5 payload `b"not-json"` (undecodable) leaves the
store untouched, performs no `claim_and_fail`, and produces exactly the
one invalid-payload DLQ envelope. -/
theorem invalid_payload_spec_witness :
    handle_message envAdMissing "T" "not-json" none dbEmpty =
      ⟨dbEmpty,
       [send_to_dlq_body "Invalid message payload" "not-json" none "T"],
       [], []⟩ :=
  ((invalid_payload_spec envAdMissing "T" "not-json" none dbEmpty).2 rfl).1

/-- Counterexample for C5 as stated: the payload `{"item_id": true}` has a
boolean — not a non-negative integer — `item_id`, yet the worker accepts
it (Python's `isinstance(True, int)` holds, reading `True` as 1): it
performs a `claim_and_fail` and DLQs "Advertisement not found" instead of
the claimed single "Invalid message payload" envelope with no task
transition. -/
theorem invalid_payload_claim_counterexample :
    extract_item_id (some (.obj [("item_id", J.b true)])) = some 1 ∧
    (∀ n : Int, J.b true ≠ J.i n) ∧
    (handle_message envAdMissing "T" "\x7b\"item_id\": true\x7d"
        (some (.obj [("item_id", J.b true)])) dbEmpty).failCalls =
      [(1, "Advertisement not found")] ∧
    (handle_message envAdMissing "T" "\x7b\"item_id\": true\x7d"
        (some (.obj [("item_id", J.b true)])) dbEmpty).dlq.map
      DlqMessage.error = ["Advertisement not found"] := by
  refine ⟨rfl, ?_, rfl, rfl⟩
  intro n h
  exact J.noConfusion h

/-- C9: the scorer input is exactly the 4-vector
`[verified ? 1 : 0, min(images,10)/10, len(description)/1000,
category/100]`, and the committed verdict is
`is_violation = (probability ≥ 0.5)` with an inclusive threshold. -/
theorem scorer_features_spec (scorer : List ℚ → ℚ) (item : AdvertisementRow) :
    build_features item =
      [if item.is_verified_seller then (1 : ℚ) else 0,
       ((min item.images_qty 10 : Nat) : ℚ) / 10,
       ((item.description.length : Nat) : ℚ) / 1000,
       ((item.category : Nat) : ℚ) / 100] ∧
    predict_probability scorer item = scorer (build_features item) ∧
    (∀ b p, worker_predict scorer item = (b, p) →
      p = predict_probability scorer item ∧
      (b = true ↔ p ≥ (1 : ℚ)/2)) ∧
    (∀ (env : WorkerEnv) (ts text : String) (parsed : Option J) (s : DB)
        (it : Int),
      extract_item_id parsed = some it →
      env.adRead = .ok (some item) →
      env.score = (fun a => .ok (predict_probability scorer a)) →
      env.completeRaises = none →
      handle_message env ts text parsed s =
        ⟨(mark_completed s it
            (decide (predict_probability scorer item ≥ (1 : ℚ)/2))
            (predict_probability scorer item)).2, [], [],
         [(it, decide (predict_probability scorer item ≥ (1 : ℚ)/2),
           predict_probability scorer item)]⟩) := by
  refine ⟨rfl, rfl, ?_, ?_⟩
  · intro b p h
    obtain ⟨hb, hp⟩ := Prod.mk.injEq .. ▸ h
    subst hb
    subst hp
    exact ⟨rfl, by simp [worker_predict]⟩
  · intro env ts text parsed s it hext hread hscore hcompl
    simp [handle_message, hext, hread, hscore, hcompl]

/-- Scorer used for the S3-style witness: constantly 0.91. -/
def scorerS3 : List ℚ → ℚ := fun _ => 91/100

/-- The S3 listing: verified seller, 2 images, description "text",
category 1. -/
def adS3 : AdvertisementRow := ⟨42, 1, true, "text", 1, 2⟩

/-- Worker environment for the S3 happy path. -/
def envS3 : WorkerEnv :=
  ⟨.ok (some adS3), fun a => .ok (predict_probability scorerS3 a), none, false⟩

/-- Witness for C9: the S3 happy path on `{item_id: 42}` commits through
`claim_and_complete` with `is_violation = (0.91 ≥ 0.5)` and probability
0.91, publishing nothing to the DLQ. -/
theorem scorer_features_spec_witness :
    handle_message envS3 "T" "\x7b\"item_id\": 42\x7d"
        (some (.obj [("item_id", J.i 42)])) dbEmpty =
      ⟨(mark_completed dbEmpty 42
          (decide (predict_probability scorerS3 adS3 ≥ (1 : ℚ)/2))
          (predict_probability scorerS3 adS3)).2, [], [],
       [(42, decide (predict_probability scorerS3 adS3 ≥ (1 : ℚ)/2),
         predict_probability scorerS3 adS3)]⟩ :=
  (scorer_features_spec scorerS3 adS3).2.2.2 envS3 "T" "\x7b\"item_id\": 42\x7d"
    (some (.obj [("item_id", J.i 42)])) dbEmpty 42 rfl rfl rfl rfl

/-- Outcome of a FastAPI handler: a JSON body or an `HTTPException`. -/
inductive HttpResult (α : Type) where
  | ok (value : α)
  | error (statusCode : Nat) (detail : String)

/-- The `status` column as serialized in responses. -/
def statusText : Status → String
  | .pending => "pending"
  | .completed => "completed"
  | .failed => "failed"

/-- Python `None`-defaulting JSON serialization of an optional boolean. -/
def jOfOptionBool : Option Bool → J
  | none => .null
  | some b => .b b

/-- Python `None`-defaulting JSON serialization of an optional number. -/
def jOfOptionRat : Option ℚ → J
  | none => .null
  | some q => .num q

/-- A `try/except Exception: pass`-style boundary around a best-effort
cache operation: the outcome is discarded either way. -/
def swallow (_outcome : Except Unit Unit) : Unit := ()

/-- `_get_cached_prediction`: a cache failure or miss yields `None`;
a payload missing `is_valid`/`probability` is treated as a miss. -/
def get_cached_prediction
    (fetch : Except Unit (Option (List (String × J)))) :
    Option (List (String × J)) :=
  match fetch with
  | .error _ => none
  | .ok none => none
  | .ok (some row) =>
    match jlookup row "is_valid", jlookup row "probability" with
    | some v1, some v2 => some [("is_valid", v1), ("probability", v2)]
    | _, _ => none

/-- `_get_cached_moderation_result`: as above, requiring `task_id` and
`status`; absent optional fields default to `None`. -/
def get_cached_moderation_result
    (fetch : Except Unit (Option (List (String × J)))) :
    Option (List (String × J)) :=
  match fetch with
  | .error _ => none
  | .ok none => none
  | .ok (some row) =>
    match jlookup row "task_id", jlookup row "status" with
    | some v1, some v2 =>
      some [("task_id", v1), ("status", v2),
            ("is_violation", (jlookup row "is_violation").getD .null),
            ("probability", (jlookup row "probability").getD .null)]
    | _, _ => none

/-- The `simple_predict` handler: cache-aside read keyed by `item_id`,
falling through to the store and the synchronous scorer (abstracted as
`predictOutcome`), then a best-effort cache write. -/
def simple_predict_route
    (cacheFetch : Except Unit (Option (List (String × J))))
    (adFetch : Except Unit (Option AdvertisementRecord))
    (predictOutcome : Except (Nat × String) (Bool × ℚ))
    (cacheStore : Except Unit Unit) : HttpResult (List (String × J)) :=
  match get_cached_prediction cacheFetch with
  | some row => .ok row
  | none =>
    match adFetch with
    | .error _ => .error 500 "Internal server error"
    | .ok none => .error 404 "Advertisement not found"
    | .ok (some _) =>
      match predictOutcome with
      | .error (code, detail) => .error code detail
      | .ok (isValid, prob) =>
        let _ := swallow cacheStore
        .ok [("is_valid", J.b isValid), ("probability", J.num prob)]

/-- The `moderation_result` handler: cache-aside read keyed by `task_id`,
falling through to the store, then a best-effort cache write. -/
def moderation_result_route
    (cacheFetch : Except Unit (Option (List (String × J))))
    (dbFetch : Except Unit (Option TaskRow))
    (cacheStore : Except Unit Unit) : HttpResult (List (String × J)) :=
  match get_cached_moderation_result cacheFetch with
  | some row => .ok row
  | none =>
    match dbFetch with
    | .error _ => .error 500 "Internal server error"
    | .ok none => .error 404 "Moderation task not found"
    | .ok (some r) =>
      let _ := swallow cacheStore
      .ok [("task_id", J.i r.id), ("status", J.s (statusText r.status)),
           ("is_violation", jOfOptionBool r.is_violation),
           ("probability", jOfOptionRat r.probability)]

/-- The `close_advertisement` handler: the cache deletes after a
successful closure are each wrapped in their own `try/except`. -/
def close_route (closeOutcome : Except Unit (Option (Int × List Nat)))
    (delPrediction : Except Unit Unit) (delTask : Nat → Except Unit Unit) :
    HttpResult (List (String × J)) :=
  match closeOutcome with
  | .error _ => .error 500 "Internal server error"
  | .ok none => .error 404 "Advertisement not found"
  | .ok (some (item, ids)) =>
    let _ := swallow delPrediction
    let _ := ids.map (fun i => swallow (delTask i))
    .ok [("item_id", J.i item), ("status", J.s "closed"),
         ("message", J.s "Advertisement closed")]

/-- C7: on the read, predict and closure paths every cache get/set/delete
failure is swallowed: the handler result equals the result with that cache
call a miss or a no-op, and no request fails because of a cache error. -/
theorem cache_best_effort_spec
    (adFetch : Except Unit (Option AdvertisementRecord))
    (predictOutcome : Except (Nat × String) (Bool × ℚ))
    (dbFetch : Except Unit (Option TaskRow))
    (closeOutcome : Except Unit (Option (Int × List Nat))) :
    (get_cached_prediction (.error ()) = get_cached_prediction (.ok none)) ∧
    (get_cached_moderation_result (.error ()) =
      get_cached_moderation_result (.ok none)) ∧
    (∀ cs cs', simple_predict_route (.error ()) adFetch predictOutcome cs =
      simple_predict_route (.ok none) adFetch predictOutcome cs') ∧
    (∀ cf cs cs', simple_predict_route cf adFetch predictOutcome cs =
      simple_predict_route cf adFetch predictOutcome cs') ∧
    (∀ cs cs', moderation_result_route (.error ()) dbFetch cs =
      moderation_result_route (.ok none) dbFetch cs') ∧
    (∀ cf cs cs', moderation_result_route cf dbFetch cs =
      moderation_result_route cf dbFetch cs') ∧
    (∀ d d' t t', close_route closeOutcome d t = close_route closeOutcome d' t') ∧
    (∀ d t, (∃ item ids, closeOutcome = .ok (some (item, ids))) →
      ∃ row, close_route closeOutcome d t = .ok row) := by
  refine ⟨rfl, rfl, fun cs cs' => rfl, fun cf cs cs' => rfl,
    fun cs cs' => rfl, fun cf cs cs' => rfl, fun d d' t t' => rfl, ?_⟩
  rintro d t ⟨item, ids, h⟩
  subst h
  exact ⟨_, rfl⟩

/-- Witness for C7: a successful closure result composed with failing
cache deletes still answers 200 with a body. -/
theorem cache_best_effort_spec_witness :
    ∃ row, close_route (.ok (some (3, [2, 10, 11]))) (.error ())
      (fun _ => .error ()) = .ok row :=
  (cache_best_effort_spec (.ok none) (.error (500, "unused")) (.ok none)
    (.ok (some (3, [2, 10, 11])))).2.2.2.2.2.2.2 (.error ())
    (fun _ => .error ()) ⟨3, [2, 10, 11], rfl⟩

/-- The `async_predict` handler (`enqueue`): resolve the listing, create
or reuse the pending task, publish to the bus, and answer with the task id
returned by `create_pending`. -/
def async_predict_route (adFetch : Except Unit (Option AdvertisementRecord))
    (θ : Interf) (s : DB) (item : Int) (busSend : Except Unit Unit) :
    HttpResult (List (String × J)) × DB :=
  match adFetch with
  | .error _ => (.error 500 "Internal server error", s)
  | .ok none => (.error 404 "Advertisement not found", s)
  | .ok (some _) =>
    match create_pending θ s item with
    | ⟨.error _, s', _⟩ => (.error 500 "Internal server error", s')
    | ⟨.ok r, s', _⟩ =>
      match busSend with
      | .error _ => (.error 500 "Internal server error", s')
      | .ok _ =>
        (.ok [("task_id", J.i r.id), ("status", J.s (statusText r.status)),
              ("message", J.s "Moderation request accepted")], s')

/-- C8: two sequential uninterleaved `create_pending(x)` calls return the
same task (the second writes nothing), and `enqueue(x)` while a pending
task for `x` exists answers with that task's id. -/
theorem create_pending_idempotent_spec (s : DB) (item : Int) :
    (∃ r, (create_pending noInterf s item).out = .ok r ∧
      create_pending noInterf (create_pending noInterf s item).db item =
        ⟨.ok r, (create_pending noInterf s item).db, 0⟩) ∧
    (∀ (p : TaskRow) (ad : AdvertisementRecord) (busSend : Except Unit Unit),
      p ∈ s.rows → p.item_id = item → p.status = .pending →
      (∀ q ∈ s.rows, q.item_id = item → q.status = .pending → q = p) →
      busSend = .ok () →
      (async_predict_route (.ok (some ad)) noInterf s item busSend).1 =
        .ok [("task_id", J.i p.id), ("status", J.s "pending"),
             ("message", J.s "Moderation request accepted")]) := by
  constructor
  · cases hsel : selectExisting (candidates s item) with
    | some r =>
      have h1 := create_pending_hit noInterf rfl hsel
      rw [h1]
      exact ⟨r, rfl, create_pending_hit noInterf rfl hsel⟩
    | none =>
      have h1 := create_pending_noInterf_insert hsel
      rw [h1]
      refine ⟨newPendingRow s item, rfl, ?_⟩
      have hcand : candidates
          { s with rows := s.rows ++ [newPendingRow s item],
                   nextId := s.nextId + 1 } item = [newPendingRow s item] := by
        unfold candidates
        rw [List.filter_append]
        have hold : candidates s item = [] := selectExisting_eq_none.mp hsel
        unfold candidates at hold
        rw [hold]
        simp [newPendingRow]
      exact create_pending_hit noInterf rfl (by rw [hcand]; rfl)
  · intro p ad busSend hp hpitem hppend huniq hbus
    have hpc : p ∈ candidates s item :=
      List.mem_filter.mpr ⟨hp, by simp [hpitem, hppend]⟩
    cases hsel : selectExisting (candidates s item) with
    | none =>
      rw [selectExisting_eq_none.mp hsel] at hpc
      exact absurd hpc (List.not_mem_nil p)
    | some r =>
      obtain ⟨hrmem, hall⟩ := selectExisting_some hsel
      obtain ⟨hrrows, hrprops⟩ := List.mem_filter.mp hrmem
      simp only [decide_eq_true_eq] at hrprops
      have hrpend : r.status = .pending := by
        rcases hrprops.2 with h | h
        · exact h
        · exfalso
          have hord := hall p hpc
          rcases hord with hlt | ⟨heq, _⟩
          · simp [statusRank, h, hppend] at hlt
          · simp [statusRank, h, hppend] at heq
      have hrp : r = p := huniq r hrrows hrprops.1 hrpend
      subst hrp
      have h1 := create_pending_hit noInterf rfl hsel
      subst hbus
      simp [async_predict_route, h1, statusText, hrpend]

/-- Store with one completed and one pending task for item 3, satisfying
the pending-unique constraint. -/
def dbC8 : DB := ⟨[rowD1, rowP1], 12, 5⟩

/-- Witness for C8: `enqueue(3)` on `dbC8`, where `rowP1` is the pending
task, answers with `rowP1`'s id. -/
theorem create_pending_idempotent_spec_witness :
    (async_predict_route (.ok (some advC6)) noInterf dbC8 3 (.ok ())).1 =
      .ok [("task_id", J.i rowP1.id), ("status", J.s "pending"),
           ("message", J.s "Moderation request accepted")] :=
  (create_pending_idempotent_spec dbC8 3).2 rowP1 advC6 (.ok ())
    (by simp [dbC8]) rfl rfl (by decide) rfl

end ModerationPipeline
